import Mathlib

/-!
Verification of the TinyWiiBackupManager installer (`src/util.rs`, `src/main.rs`).

The Rust functions are shallowly embedded as Lean functions. Environment
queries (registry reads, environment variables, the executable's file name,
HTTP responses) become explicit parameters; filesystem and registry side
effects become explicit state passing over an `FsState` record. Byte strings
are `List Nat`, zip archives are association lists of named entries, and the
Windows registry key written by the installer is an association list of
named values.
-/

/- ## Platform probe: `Os`, `get_os` (util.rs lines 152-184) -/

/-- The `Os` enum from util.rs: `Windows` (Windows 10+) or `Windows7` (legacy). -/
inductive Os
  | Windows
  | Windows7
deriving DecidableEq

/-- `Os::as_str` from util.rs: the token used in the download URL. -/
def Os.as_str : Os → String
  | Os.Windows => "windows"
  | Os.Windows7 => "windows7"

/-- Decides whether `pat` is a prefix of `hay`, character by character. -/
def isPrefixList : List Char → List Char → Bool
  | [], _ => true
  | _ :: _, [] => false
  | a :: as, b :: bs => a == b && isPrefixList as bs

/-- Substring containment on character lists, modelling Rust `str::contains`:
`pat` occurs at some position of `hay` (the empty pattern always occurs). -/
def containsSub : List Char → List Char → Bool
  | [], pat => isPrefixList pat []
  | h :: t, pat => isPrefixList pat (h :: t) || containsSub t pat

/-- Rust `str::contains` on strings: `pat` is a contiguous substring of `hay`. -/
def strContains (hay pat : String) : Bool :=
  containsSub hay.data pat.data

/-- Error raised by `get_os` when the registry query for
`SOFTWARE\Microsoft\Windows NT\CurrentVersion\ProductName` fails
(either `LOCAL_MACHINE.open` or `key.get_string` returns `Err`). -/
inductive OsError
  | registryQueryFailed
deriving DecidableEq

/-- `get_os` from util.rs (lines 175-184). The registry queries are modelled by
the parameter `productName`: `none` when `open`/`get_string` fails (the Rust
code propagates that error with `?`), `some p` when the queried `ProductName`
is `p`. On success the flavor is `Windows` exactly when the product name
contains the literal substring `"Windows 10"`. -/
def get_os (productName : Option String) : Except OsError Os :=
  match productName with
  | none => Except.error OsError.registryQueryFailed
  | some p =>
      if strContains p "Windows 10" then Except.ok Os.Windows
      else Except.ok Os.Windows7

/- ## Platform probe: `Arch`, `get_arch` (util.rs lines 186-229) -/

/-- The `Arch` enum from util.rs. -/
inductive Arch
  | I686
  | X86_64
  | X86_64v3
  | Aarch64
deriving DecidableEq

/-- `Arch::as_str` from util.rs: the token used in the download URL. -/
def Arch.as_str : Arch → String
  | Arch.I686 => "x86"
  | Arch.X86_64 => "x86_64"
  | Arch.X86_64v3 => "x86_64-v3"
  | Arch.Aarch64 => "arm64"

/-- `get_arch` from util.rs (lines 214-229). `envVar` models
`env::var("PROCESSOR_ARCHITEW6432").as_deref()` (`none` for `Err(_)`);
`avx2`, `fma`, `bmi2` model the three `is_x86_feature_detected!` probes.
`"AMD64"` maps to x86-64, upgraded to x86-64-v3 only when all three features
are present; `"ARM64"` maps to Aarch64; everything else falls back to I686. -/
def get_arch (envVar : Option String) (avx2 fma bmi2 : Bool) : Arch :=
  if envVar = some "AMD64" then
    if avx2 && fma && bmi2 then Arch.X86_64v3 else Arch.X86_64
  else if envVar = some "ARM64" then
    Arch.Aarch64
  else
    Arch.I686

/- ## Release resolver (util.rs lines 104-116 and 141-150) -/

/-- Transport-level failure of `minreq::get(..).send()`. -/
inductive TransportError
  | network
deriving DecidableEq

/-- Error result of `get_latest_version`: the transport failed, or the
response body was not valid text (`as_str` failed). -/
inductive FetchError
  | transport
  | nonTextBody
deriving DecidableEq

/-- `get_latest_version` from util.rs (lines 141-150). The HTTP exchange is
modelled by `resp`: `Except.error e` when `send()` fails, `Except.ok none`
when the body is not valid UTF-8 (`as_str` fails), and `Except.ok (some b)`
when the body decodes to the text `b`. The Rust code returns
`as_str()?.to_string()` — the body verbatim, with no trimming. -/
def get_latest_version (resp : Except TransportError (Option String)) :
    Except FetchError String :=
  match resp with
  | Except.error _ => Except.error FetchError.transport
  | Except.ok none => Except.error FetchError.nonTextBody
  | Except.ok (some body) => Except.ok body

/-- The GitHub project base URL used by both endpoints in util.rs. -/
def baseUrl : String := "https://github.com/mq1/TinyWiiBackupManager"

/-- The URL built by `download` in util.rs (lines 105-111): the `format!`
string with the version substituted twice and the OS and arch tokens. -/
def download_url (version : String) (os : Os) (arch : Arch) : String :=
  "https://github.com/mq1/TinyWiiBackupManager/releases/download/v" ++ version
    ++ "/TinyWiiBackupManager-v" ++ version ++ "-" ++ os.as_str ++ "-"
    ++ arch.as_str ++ ".zip"

/- ## Install transaction (util.rs lines 17-102) -/

/-- Byte string: the contents of a file or archive entry. -/
abbrev Bytes := List Nat

/-- A successfully parsed zip archive: its named entries with their contents
(`ZipArchive` after `ZipArchive::new` succeeded). -/
abbrev Zip := List (String × Bytes)

/-- `archive.by_name`: the first entry with the given name, if any. -/
def findEntry : Zip → String → Option Bytes
  | [], _ => none
  | (n, b) :: rest, name => if n = name then some b else findEntry rest name

/-- A value stored in a registry key: `set_string` stores strings,
`set_u32` stores 32-bit integers. -/
inductive RegValue
  | str (s : String)
  | u32 (n : Nat)
deriving DecidableEq

/-- The named values of one registry key, in insertion order. -/
abbrev RegKey := List (String × RegValue)

/-- `key.set_string` / `key.set_u32`: replace the value named `k` in place,
or append it when absent. -/
def setValue (k : String) (v : RegValue) : RegKey → RegKey
  | [] => [(k, v)]
  | (k', v') :: rest =>
      if k' = k then (k, v) :: rest else (k', v') :: setValue k v rest

/-- Apply a sequence of `setValue` updates in order. -/
def applyAll (us : List (String × RegValue)) (r : RegKey) : RegKey :=
  us.foldl (fun acc kv => setValue kv.1 kv.2 acc) r

/-- The `.lnk` file written by `ShellLink` in util.rs (lines 59-63): target,
working directory, icon location and display name. -/
structure Shortcut where
  target : String
  workingDir : Option String
  icon : Option String
  name : Option String
deriving DecidableEq

/-- The filesystem and registry state touched by `install`:
the install directory (`none` = absent, `some files` = present with these
named files), the desktop shortcut file, the start-menu shortcut directory,
and the per-application uninstall registry key. -/
structure FsState where
  installDir : Option (List (String × Bytes))
  desktopShortcut : Option Shortcut
  startMenuDir : Option (List (String × Shortcut))
  registry : Option RegKey
deriving DecidableEq

/-- The state with nothing installed and nothing registered. -/
def emptyState : FsState :=
  { installDir := none, desktopShortcut := none,
    startMenuDir := none, registry := none }

/-- `base_dirs.data_local_dir().join("TinyWiiBackupManager")`, as a string.
The per-user local application data root is environment-provided; its exact
value is irrelevant to the claims, so it is a fixed symbolic constant. -/
def install_dir_str : String := "<LOCALAPPDATA>\\TinyWiiBackupManager"

/-- `install_dir.join("TinyWiiBackupManager.exe")`, as a string. -/
def exe_path_str : String := install_dir_str ++ "\\TinyWiiBackupManager.exe"

/-- `install_dir.join("uninstall.ps1")`, as a string. -/
def uninstaller_path_str : String := install_dir_str ++ "\\uninstall.ps1"

/-- Modelled from the spec: the bytes of the bundled uninstall script
(`include_bytes!("../uninstall.ps1")`; the file itself is not under `src/`).
Its content is opaque to every claim, so a fixed placeholder byte is used. -/
def UNINSTALL_PS1 : Bytes := [35]

/-- `fs::remove_dir_all(&install_dir)`. -/
def removeDirAll (s : FsState) : FsState := { s with installDir := none }

/-- `fs::create_dir(&install_dir)`: creates the directory empty. -/
def createDir (s : FsState) : FsState := { s with installDir := some [] }

/-- `fs::create_dir_all(&install_dir)`: creates the directory (and parents)
empty. -/
def createDirAll (s : FsState) : FsState := { s with installDir := some [] }

/-- util.rs lines 38-44: if the install directory exists, remove it
recursively and recreate it empty; otherwise create it (with parents). -/
def prepareInstallDir (s : FsState) : FsState :=
  if s.installDir.isSome then createDir (removeDirAll s) else createDirAll s

/-- Failure modes of `install` that the claims distinguish:
`corruptArchive` when `ZipArchive::new` fails, `executableMissing` when
`archive.by_name("TinyWiiBackupManager.exe")` fails. -/
inductive InstallError
  | corruptArchive
  | executableMissing
deriving DecidableEq

/-- The uninstall command line written to `UninstallString` (util.rs
lines 80-83). -/
def uninstall_cmd : String :=
  "powershell.exe -ExecutionPolicy Bypass -WindowStyle Hidden -File \""
    ++ uninstaller_path_str ++ "\""

/-- The eight registry values written by `install` (util.rs lines 85-92),
in the order they are set. -/
def registryFields (version : String) : List (String × RegValue) :=
  [("DisplayName", RegValue.str "TinyWiiBackupManager"),
   ("DisplayVersion", RegValue.str version),
   ("Publisher", RegValue.str "Manuel Quarneti"),
   ("InstallLocation", RegValue.str install_dir_str),
   ("DisplayIcon", RegValue.str exe_path_str),
   ("UninstallString", RegValue.str uninstall_cmd),
   ("NoModify", RegValue.u32 1),
   ("NoRepair", RegValue.u32 1)]

/-- `install` from util.rs (lines 17-95), as a state transformer.
`archive` models `ZipArchive::new(Cursor::new(bytes))`: `none` when the
bytes are not a valid zip (the Rust code returns that error), `some z` for
the parsed archive. The Rust function returns early with `?` at each failed
step, keeping the side effects performed so far, so the result pairs the
`Result` value with the final state. -/
def install (version : String) (archive : Option Zip) (s : FsState) :
    Except InstallError String × FsState :=
  match archive with
  | none => (Except.error InstallError.corruptArchive, s)
  | some z =>
      let s1 := prepareInstallDir s
      match findEntry z "TinyWiiBackupManager.exe" with
      | none => (Except.error InstallError.executableMissing, s1)
      | some exeBytes =>
          let files : List (String × Bytes) :=
            [("TinyWiiBackupManager.exe", exeBytes),
             ("uninstall.ps1", UNINSTALL_PS1)]
          let s2 := { s1 with installDir := some files }
          let sc : Shortcut :=
            { target := exe_path_str, workingDir := some install_dir_str,
              icon := some exe_path_str,
              name := some "TinyWiiBackupManager" }
          let s3 := { s2 with desktopShortcut := some sc }
          let s4 := { s3 with startMenuDir := some [("TinyWiiBackupManager.lnk", sc)] }
          let r0 := s4.registry.getD []
          let s5 := { s4 with registry := some (applyAll (registryFields version) r0) }
          (Except.ok version, s5)

/-- `is_installed` from util.rs (lines 97-102): the install directory
exists. -/
def is_installed (s : FsState) : Bool := s.installDir.isSome

/- ## Session state machine (main.rs lines 19-59) -/

/-- The `State` enum from main.rs. -/
inductive AppState
  | fetchingLatestVersion
  | couldNotFetchLatestVersion (e : String)
  | gotLatestVersion (v : String)
  | downloading (v : String)
  | installing (v : String)
  | installed (v : String)
  | errored (e : String)
  | askingUninstallConfirmation (isUninstaller : Bool)
  | uninstalling
  | uninstalled
deriving DecidableEq

/-- An asynchronous operation scheduled with `Task::perform` in main.rs. -/
inductive AsyncOp
  | getLatestVersion
  | download (version : String) (os : Os) (arch : Arch)
  | install (version : String)
  | uninstall (isUninstaller : Bool)
deriving DecidableEq

/-- The `iced::Task` value returned by an update step: `Task::none()` or
`Task::perform(op, ..)` with a single scheduled operation. -/
inductive AppTask
  | noTask
  | perform (op : AsyncOp)
deriving DecidableEq

/-- `State::new` from main.rs (lines 44-59). `currentExeName` models
`std::env::current_exe()` followed by `file_name()` and `to_str()`:
`some name` when all three succeed, `none` otherwise. When the running
executable is named `uninstall.exe` the session starts in
`AskingUninstallConfirmation(true)` with `Task::none()`; otherwise it starts
in `FetchingLatestVersion` and schedules one `get_latest_version` call. -/
def AppState.new (currentExeName : Option String) : AppState × AppTask :=
  if currentExeName = some "uninstall.exe" then
    (AppState.askingUninstallConfirmation true, AppTask.noTask)
  else
    (AppState.fetchingLatestVersion, AppTask.perform AsyncOp.getLatestVersion)

/- ## Derived forms used in theorem statements -/

/-- The install directory contents produced by a run of `install` on a valid
archive `z`, independent of the prior state: empty when the executable entry
is missing (the run fails right after the rebuild), otherwise exactly the
executable and the uninstall script. -/
def rebuiltDir (z : Zip) : Option (List (String × Bytes)) :=
  match findEntry z "TinyWiiBackupManager.exe" with
  | none => some []
  | some exeBytes =>
      some [("TinyWiiBackupManager.exe", exeBytes),
            ("uninstall.ps1", UNINSTALL_PS1)]

/-- Lookup of a named value in a registry key. -/
def lookupValue (k : String) : RegKey → Option RegValue
  | [] => none
  | (k', v') :: rest => if k' = k then some v' else lookupValue k rest

/- ## Registry update lemmas -/

theorem applyAll_nil (m : RegKey) : applyAll [] m = m := rfl

theorem applyAll_cons (k : String) (v : RegValue)
    (us : List (String × RegValue)) (m : RegKey) :
    applyAll ((k, v) :: us) m = applyAll us (setValue k v m) := rfl

theorem setValue_of_lookup_eq (k : String) (v : RegValue) (m : RegKey)
    (h : lookupValue k m = some v) : setValue k v m = m := by
  induction m with
  | nil => simp [lookupValue] at h
  | cons hd tl ih =>
      obtain ⟨a, b⟩ := hd
      by_cases ha : a = k
      · subst ha
        simp [lookupValue] at h
        simp [setValue, h]
      · simp [lookupValue, ha] at h
        simp [setValue, ha, ih h]

theorem lookup_setValue_same (k : String) (v : RegValue) (m : RegKey) :
    lookupValue k (setValue k v m) = some v := by
  induction m with
  | nil => simp [setValue, lookupValue]
  | cons hd tl ih =>
      obtain ⟨a, b⟩ := hd
      by_cases ha : a = k
      · subst ha; simp [setValue, lookupValue]
      · simp [setValue, lookupValue, ha, ih]

theorem lookup_setValue_other (k k' : String) (v' : RegValue) (m : RegKey)
    (h : k' ≠ k) : lookupValue k (setValue k' v' m) = lookupValue k m := by
  induction m with
  | nil => simp [setValue, lookupValue, h]
  | cons hd tl ih =>
      obtain ⟨a, b⟩ := hd
      by_cases ha : a = k'
      · subst ha; simp [setValue, lookupValue, h]
      · simp [setValue, lookupValue, ha, ih]

theorem lookup_applyAll_of_not_mem (k : String)
    (us : List (String × RegValue)) (m : RegKey)
    (h : ∀ kv ∈ us, kv.1 ≠ k) :
    lookupValue k (applyAll us m) = lookupValue k m := by
  induction us generalizing m with
  | nil => rfl
  | cons hd tl ih =>
      obtain ⟨a, b⟩ := hd
      rw [applyAll_cons, ih _ (fun kv hkv => h kv (List.mem_cons_of_mem _ hkv)),
        lookup_setValue_other _ _ _ _ (h (a, b) (List.mem_cons_self _ _))]

theorem lookup_applyAll_mem (us : List (String × RegValue)) (l : RegKey)
    (hnd : (us.map Prod.fst).Nodup) :
    ∀ kv ∈ us, lookupValue kv.1 (applyAll us l) = some kv.2 := by
  induction us generalizing l with
  | nil => intro kv hkv; simp at hkv
  | cons hd tl ih =>
      obtain ⟨a, b⟩ := hd
      simp only [List.map_cons, List.nodup_cons, List.mem_map] at hnd
      intro kv hkv
      rcases List.mem_cons.mp hkv with heq | hmem
      · subst heq
        rw [applyAll_cons]
        rw [lookup_applyAll_of_not_mem _ _ _
          (fun kv' hkv' => fun hc => hnd.1 ⟨kv', hkv', hc⟩)]
        exact lookup_setValue_same _ _ _
      · exact ih _ hnd.2 kv hmem

theorem applyAll_of_lookup (us : List (String × RegValue)) (m : RegKey)
    (h : ∀ kv ∈ us, lookupValue kv.1 m = some kv.2) :
    applyAll us m = m := by
  induction us with
  | nil => rfl
  | cons hd tl ih =>
      obtain ⟨a, b⟩ := hd
      rw [applyAll_cons, setValue_of_lookup_eq _ _ _ (h (a, b) (List.mem_cons_self _ _))]
      exact ih (fun kv hkv => h kv (List.mem_cons_of_mem _ hkv))

theorem applyAll_idem (us : List (String × RegValue)) (l : RegKey)
    (hnd : (us.map Prod.fst).Nodup) :
    applyAll us (applyAll us l) = applyAll us l :=
  applyAll_of_lookup _ _ (lookup_applyAll_mem us l hnd)

theorem registryFields_keys_nodup (version : String) :
    ((registryFields version).map Prod.fst).Nodup := by
  show (["DisplayName", "DisplayVersion", "Publisher", "InstallLocation",
    "DisplayIcon", "UninstallString", "NoModify", "NoRepair"] :
    List String).Nodup
  decide

/- ## Claim theorems -/

/-- C5: `get_arch` maps the `"AMD64"` indicator to x86-64, upgraded to
x86-64-v3 exactly when AVX2, FMA and BMI2 are all advertised; the `"ARM64"`
indicator to Aarch64; and every other or missing indicator to I686. In
particular it never selects x86-64-v3 unless all three capabilities are
present. -/
theorem get_arch_capability_spec (envVar : Option String) (avx2 fma bmi2 : Bool) :
    (get_arch envVar avx2 fma bmi2 = Arch.X86_64v3 ↔
      envVar = some "AMD64" ∧ avx2 = true ∧ fma = true ∧ bmi2 = true)
    ∧ (get_arch envVar avx2 fma bmi2 = Arch.X86_64 ↔
      envVar = some "AMD64" ∧ (avx2 && fma && bmi2) = false)
    ∧ (get_arch envVar avx2 fma bmi2 = Arch.Aarch64 ↔ envVar = some "ARM64")
    ∧ (get_arch envVar avx2 fma bmi2 = Arch.I686 ↔
      envVar ≠ some "AMD64" ∧ envVar ≠ some "ARM64") := by
  by_cases h1 : envVar = some "AMD64"
  · cases avx2 <;> cases fma <;> cases bmi2 <;> simp [get_arch, h1]
  · by_cases h2 : envVar = some "ARM64" <;> simp [get_arch, h1, h2]

/-- C8: the download URL is a pure function of (version, os, arch) equal to
`{base}/releases/download/v{version}/TinyWiiBackupManager-v{version}-{os}-{arch}.zip`
with the version substituted twice, the OS token one of `windows`/`windows7`
and the arch token one of `x86`/`x86_64`/`x86_64-v3`/`arm64`. -/
theorem download_url_spec (version : String) (os : Os) (arch : Arch) :
    download_url version os arch
      = baseUrl ++ "/releases/download/v" ++ version ++ "/TinyWiiBackupManager-v"
        ++ version ++ "-" ++ os.as_str ++ "-" ++ arch.as_str ++ ".zip"
    ∧ (os.as_str = "windows" ∨ os.as_str = "windows7")
    ∧ (arch.as_str = "x86" ∨ arch.as_str = "x86_64"
        ∨ arch.as_str = "x86_64-v3" ∨ arch.as_str = "arm64") := by
  refine ⟨?_, ?_, ?_⟩
  · have hb : baseUrl ++ "/releases/download/v"
        = "https://github.com/mq1/TinyWiiBackupManager/releases/download/v" := rfl
    simp only [download_url]
    rw [hb]
  · cases os <;> simp [Os.as_str]
  · cases arch <;> simp [Arch.as_str]

/-- C9: at startup the session enters exactly one of two initial phases:
when the running executable is named `uninstall.exe` it starts in the
uninstall-confirmation phase with no scheduled operation, and in every other
case it starts fetching the latest version with exactly one scheduled
`get_latest_version` operation. -/
theorem state_new_spec (n : Option String) :
    (n = some "uninstall.exe" →
      AppState.new n = (AppState.askingUninstallConfirmation true, AppTask.noTask))
    ∧ (n ≠ some "uninstall.exe" →
      AppState.new n
        = (AppState.fetchingLatestVersion, AppTask.perform AsyncOp.getLatestVersion)) := by
  constructor <;> intro h <;> simp [AppState.new, h]

/-- Witness for C9: the two initial phases at the concrete executable names
`uninstall.exe` and `installer.exe`. -/
theorem state_new_spec_witness :
    AppState.new (some "uninstall.exe")
        = (AppState.askingUninstallConfirmation true, AppTask.noTask)
    ∧ AppState.new (some "installer.exe")
        = (AppState.fetchingLatestVersion, AppTask.perform AsyncOp.getLatestVersion) :=
  ⟨(state_new_spec (some "uninstall.exe")).1 rfl,
   (state_new_spec (some "installer.exe")).2 (by decide)⟩

/-- C10: `get_os` yields the modern flavor `Windows` exactly when the queried
product name contains the literal substring `"Windows 10"`, and the legacy
flavor `Windows7` for every other queryable product name — including one
reporting `"Windows 11 Pro"`. -/
theorem get_os_modern_marker (p : String) :
    (get_os (some p) = Except.ok Os.Windows ↔ strContains p "Windows 10" = true)
    ∧ (get_os (some p) = Except.ok Os.Windows7 ↔ strContains p "Windows 10" = false)
    ∧ get_os (some "Windows 11 Pro") = Except.ok Os.Windows7 := by
  refine ⟨?_, ?_, rfl⟩ <;>
    cases hb : strContains p "Windows 10" <;> simp [get_os, hb]

/-- C3 (divergence witness): when the registry query for the product name
fails, `get_os` returns an error instead of falling back to the legacy
flavor, so the OS-flavor probe is not total. -/
theorem get_os_query_failure :
    get_os none = Except.error OsError.registryQueryFailed
    ∧ get_os none ≠ Except.ok Os.Windows7
    ∧ get_os none ≠ Except.ok Os.Windows := by
  refine ⟨rfl, ?_, ?_⟩ <;> simp [get_os]

/-- Whitespace trimming of a string (leading and trailing whitespace
removed), the spec's notion of a "trimmed" version string. -/
def strTrim (s : String) : String :=
  String.mk (((s.data.dropWhile Char.isWhitespace).reverse.dropWhile
    Char.isWhitespace).reverse)

/-- C4 (counterexample): `get_latest_version` does not trim the response
body. On the body `"1.2.3\n"` it returns `"1.2.3\n"` verbatim, which differs
from the trimmed string `"1.2.3"`. -/
theorem get_latest_version_trim_cex :
    get_latest_version (Except.ok (some "1.2.3\n")) = Except.ok "1.2.3\n"
    ∧ strTrim "1.2.3\n" = "1.2.3"
    ∧ get_latest_version (Except.ok (some "1.2.3\n")) ≠ Except.ok "1.2.3" := by
  refine ⟨rfl, ?_, ?_⟩
  · decide
  · intro h
    exact absurd (Except.ok.inj h) (by decide)

/-- C4 (amended): `get_latest_version` returns the response body verbatim
(untrimmed) as an opaque version string, and fails exactly when the transport
errors (`transport`) or the body is not text (`nonTextBody`). -/
theorem get_latest_version_spec (b : String) (e : TransportError) :
    get_latest_version (Except.ok (some b)) = Except.ok b
    ∧ get_latest_version (Except.error e) = Except.error FetchError.transport
    ∧ get_latest_version (Except.ok none) = Except.error FetchError.nonTextBody :=
  ⟨rfl, rfl, rfl⟩

/-- C2: on a valid archive lacking the `TinyWiiBackupManager.exe` entry,
`install` fails with `executableMissing` and leaves the desktop shortcut,
the start-menu shortcut directory and the uninstall registry key untouched. -/
theorem install_missing_exe_no_shell_writes (version : String) (z : Zip)
    (s : FsState) (h : findEntry z "TinyWiiBackupManager.exe" = none) :
    (install version (some z) s).1 = Except.error InstallError.executableMissing
    ∧ (install version (some z) s).2.desktopShortcut = s.desktopShortcut
    ∧ (install version (some z) s).2.startMenuDir = s.startMenuDir
    ∧ (install version (some z) s).2.registry = s.registry := by
  obtain ⟨d, ds, sm, r⟩ := s
  cases d <;>
    simp [install, h, prepareInstallDir, removeDirAll, createDir, createDirAll]

/-- Witness for C2: a valid zip holding only `readme.txt` makes `install`
fail with `executableMissing` and write no shortcut and no registry record. -/
theorem install_missing_exe_no_shell_writes_witness :
    (install "3.2.1" (some [("readme.txt", [114])]) emptyState).1
        = Except.error InstallError.executableMissing
    ∧ (install "3.2.1" (some [("readme.txt", [114])]) emptyState).2.desktopShortcut
        = none
    ∧ (install "3.2.1" (some [("readme.txt", [114])]) emptyState).2.startMenuDir
        = none
    ∧ (install "3.2.1" (some [("readme.txt", [114])]) emptyState).2.registry
        = none :=
  install_missing_exe_no_shell_writes "3.2.1" [("readme.txt", [114])]
    emptyState (by decide)

/-- C1 (divergence witness): a valid zip holding only `readme.txt` makes
`install` fail with `executableMissing`, yet the install directory has
already been rebuilt empty, so `is_installed` reports `true` — the failed
attempt is mistaken for a valid installation. -/
theorem install_missing_exe_mistaken_install :
    (install "1.0" (some [("readme.txt", [104, 105])]) emptyState).1
        = Except.error InstallError.executableMissing
    ∧ (install "1.0" (some [("readme.txt", [104, 105])]) emptyState).2.installDir
        = some []
    ∧ is_installed (install "1.0" (some [("readme.txt", [104, 105])]) emptyState).2
        = true := by
  refine ⟨rfl, rfl, rfl⟩

/-- C7: once the archive has been opened, the install directory is rebuilt
from scratch. The prepare step leaves it existing and empty whether or not
it existed before, and the final install-directory contents depend only on
the archive, never on the previous state — no stale file survives. -/
theorem install_rebuilds_install_dir (version : String) (z : Zip)
    (s t : FsState) :
    (prepareInstallDir s).installDir = some []
    ∧ (install version (some z) s).2.installDir = rebuiltDir z
    ∧ (install version (some z) s).2.installDir
        = (install version (some z) t).2.installDir := by
  have key : ∀ u : FsState, (install version (some z) u).2.installDir = rebuiltDir z := by
    intro u
    obtain ⟨d, ds, sm, r⟩ := u
    cases hfe : findEntry z "TinyWiiBackupManager.exe" <;> cases d <;>
      simp [install, hfe, rebuiltDir, prepareInstallDir, removeDirAll,
        createDir, createDirAll]
  have hprep : (prepareInstallDir s).installDir = some [] := by
    obtain ⟨d, ds, sm, r⟩ := s
    cases d <;>
      simp [prepareInstallDir, removeDirAll, createDir, createDirAll]
  exact ⟨hprep, key s, (key s).trans (key t).symm⟩

/-- C6: running `install` twice in succession with the same version and the
same valid archive leaves the filesystem and registry state (install
directory, desktop shortcut, start-menu directory, registry fields)
identical to running it once. -/
theorem install_idempotent (version : String) (z : Zip) (s : FsState) :
    (install version (some z) ((install version (some z) s).2)).2
      = (install version (some z) s).2 := by
  obtain ⟨d, ds, sm, r⟩ := s
  cases hfe : findEntry z "TinyWiiBackupManager.exe" with
  | none =>
      cases d <;>
        simp [install, hfe, prepareInstallDir, removeDirAll, createDir,
          createDirAll]
  | some c =>
      cases d <;>
        simp [install, hfe, prepareInstallDir, removeDirAll, createDir,
          createDirAll] <;>
        exact applyAll_idem _ _ (registryFields_keys_nodup version)
